import Mathlib

/-!
Shallow embedding of `src/server-manager.ts` (biblib-cli).

The TypeScript module manages a local translation-server process through
four operations (`status`, `start`, `stop`, `ensureRunning`).  Its external
effects are: HTTP GET probes (`fetch`), reads/writes/unlinks of a pid file,
`mkdir` of the pid/log parent directories, `spawn` of a child process, and
`process.kill` calls.  We model the environment by oracles (the outcome of
each fetch, the liveness of each pid) and the mutable world by the pid-file
content plus an append-only log of observable effects (mkdir, spawn, kill).
Timed loops (`while Date.now() < deadline`) are modelled by a fuel
parameter: the number of iterations for which the deadline has not yet
passed.  JavaScript string/number primitives used by the module
(`String.prototype.trim`, `Number`, template stringification of an integer)
are modelled by explicit functions on `List Char`.
-/

/-- Outcome of one `fetch` call as observed by `pingTranslationServer`:
either an HTTP response with a status code arrived before the abort timer
fired, or the call failed (network error, abort at the timeout, transport
failure — the `catch` branch of the source). -/
inductive FetchOutcome where
  | response (code : Nat)
  | failure
  deriving DecidableEq

/-- Models `serverUrl.replace(/\/+$/, '/')` from `pingTranslationServer`:
a run of one or more trailing slashes is collapsed to a single slash; a URL
with no trailing slash is unchanged. -/
def normalizeUrl (s : String) : String :=
  match s.data.getLast? with
  | some '/' => ((s.data.reverse.dropWhile (fun c => c == '/')).reverse ++ ['/']).asString
  | _ => s

/-- `pingTranslationServer(serverUrl, timeoutMs)` (lines 11–23): one GET
request against the normalized URL with a hard abort at `timeoutMs`;
returns `status < 500` when a response arrives and `false` on any thrown
error.  The HTTP transport is the oracle `fetch`, taking the requested URL
and the timeout. -/
def pingTranslationServer (fetch : String → Nat → FetchOutcome) (url : String)
    (timeoutMs : Nat) : Bool :=
  match fetch (normalizeUrl url) timeoutMs with
  | FetchOutcome.response code => decide (code < 500)
  | FetchOutcome.failure => false

/-- Scans for the first `://` in the character list and returns what
follows it. -/
def afterSchemeSep : List Char → Option (List Char)
  | [] => none
  | ':' :: '/' :: '/' :: rest => some rest
  | _ :: rest => afterSchemeSep rest

/-- Models `new URL(serverUrl).hostname` (function `parseHost`, lines
25–27) for the `scheme://host[:port][/path]` URLs the manager receives:
the authority is what follows `://` up to the first `/`, `?` or `#`; the
hostname is the authority up to the first `:`, lowercased (the WHATWG
parser lowercases hostnames).  `none` models the `URL` constructor
throwing on input without a scheme separator or with an empty host.
Userinfo stripping and IPv6 brackets are not modelled — no claim involves
them. -/
def parseHost (url : String) : Option String :=
  match afterSchemeSep url.data with
  | none => none
  | some rest =>
    let hostport := rest.takeWhile (fun c => !(c == '/' || c == '?' || c == '#'))
    let host := hostport.takeWhile (fun c => !(c == ':'))
    if host.isEmpty then none else some (host.map Char.toLower).asString

/-- The whitespace characters relevant to `String.prototype.trim` that can
meet a pid file (space, tab, newline, carriage return; the further Unicode
space classes JS also trims never arise from digits and newlines). -/
def isJsSpace (c : Char) : Bool :=
  c == ' ' || c == '\t' || c == '\n' || c == '\r'

/-- Models `raw.trim()` on the character list: drop whitespace from both
ends. -/
def listTrim (l : List Char) : List Char :=
  ((l.dropWhile isJsSpace).reverse.dropWhile isJsSpace).reverse

/-- `trim` lifted back to `String`, used for `sourcePath.trim() === ''`. -/
def jsTrimStr (s : String) : String :=
  (listTrim s.data).asString

/-- Numeric value of a decimal digit character. -/
def digitVal (c : Char) : Nat := c.toNat - 48

/-- A non-empty all-digit character list. -/
def isDigitList (l : List Char) : Bool :=
  !l.isEmpty && l.all (fun c => c.isDigit)

/-- Value of a big-endian decimal digit list. -/
def decValue (l : List Char) : Nat :=
  l.foldl (fun a c => a * 10 + digitVal c) 0

/-- Value of a little-endian decimal digit list (proof companion of
`decValue`). -/
def decValueLE : List Char → Nat
  | [] => 0
  | c :: rest => digitVal c + 10 * decValueLE rest

/-- Models `Number(s)` (already trimmed) restricted by the
`Number.isInteger` guard that follows it in `readPidFile`: `some n` when
`s` is an optionally signed decimal integer (or empty — `Number('') === 0`),
`none` when the result would be `NaN` or non-integral, both of which the
`!Number.isInteger(pid)` test in the source sends to `null`.  Exponent,
hexadecimal and fractional spellings that `Number` also accepts are not
distinguished; no claim and no writer of the pid file produces them. -/
def jsNumberChars : List Char → Option Int
  | [] => some 0
  | c :: rest =>
    if c == '-' then
      if isDigitList rest then some (-(decValue rest : Int)) else none
    else if c == '+' then
      if isDigitList rest then some ((decValue rest : Int)) else none
    else
      if isDigitList (c :: rest) then some ((decValue (c :: rest) : Int)) else none

/-- `readPidFile` (lines 38–52) over the pid-file content: `none` for a
missing file (ENOENT), otherwise `Number(raw.trim())` guarded by
`Number.isInteger(pid) && pid > 0`; non-numeric, non-integral, zero or
negative content yields `none`.  Non-ENOENT I/O failures, which the source
rethrows, are outside the modelled world. -/
def readPidFile : Option String → Option Int
  | none => none
  | some raw =>
    match jsNumberChars (listTrim raw.data) with
    | none => none
    | some pid => if pid ≤ 0 then none else some pid

/-- Little-endian decimal digits of `n`, structural in a fuel argument
(`n ≤ fuel` makes the fuel irrelevant).  Models the digit sequence JS
template stringification `${child.pid}` produces for a non-negative
integer. -/
def revDigits : Nat → Nat → List Char
  | _, 0 => []
  | 0, _ + 1 => []
  | fuel + 1, n + 1 => Nat.digitChar ((n + 1) % 10) :: revDigits fuel ((n + 1) / 10)

/-- Decimal rendering of a natural number, as `${n}` produces. -/
def natDecString (n : Nat) : String :=
  if n = 0 then "0" else ((revDigits n n).reverse).asString

/-- Models JS template stringification of the integer `child.pid`. -/
def jsIntToString (c : Int) : String :=
  if c < 0 then "-" ++ natDecString c.natAbs else natDecString c.toNat

/-- The signal argument of a `process.kill` call: `0` (the zero-effect
existence probe of `isProcessRunning`), `SIGTERM`, or `SIGKILL`. -/
inductive Sig where
  | sig0
  | sigterm
  | sigkill
  deriving DecidableEq

/-- Externally observable actions of the manager other than pid-file
content changes: `mkdirParent f` records `fsp.mkdir(path.dirname(f),
{recursive: true})`, `spawn pid` records a child process spawned with that
assigned pid, `kill pid s` records `process.kill(pid, s)`. -/
inductive Effect where
  | mkdirParent (file : String)
  | spawn (pid : Int)
  | kill (pid : Int) (signal : Sig)
  deriving DecidableEq

/-- The mutable world: the content of `settings.pidFile` (`none` = file
absent) and the append-only log of observable effects. -/
structure World where
  pidFileContent : Option String
  events : List Effect
  deriving DecidableEq

/-- `isProcessRunning(pid)` (lines 29–36): `process.kill(pid, 0)` inside
try/catch — returns the liveness oracle's answer and logs the signal-0
probe. -/
def isProcessRunning (alive : Int → Bool) (pid : Int) (w : World) : Bool × World :=
  (alive pid, { w with events := w.events ++ [Effect.kill pid Sig.sig0] })

/-- The three-way process classification of `NodeServerStatus`. -/
inductive PState where
  | running
  | stopped
  | missing
  deriving DecidableEq

/-- `NodeServerStatus` (lines 64–68). -/
structure NodeServerStatus where
  reachable : Bool
  pid : Option Int
  process : PState
  deriving DecidableEq

/-- `ServerManagementConfig` (from `types.ts`), the immutable settings of
the manager. -/
structure ServerManagementConfig where
  enabled : Bool
  autoStart : Bool
  sourcePath : String
  nodeCommand : String
  pidFile : String
  logFile : String
  startupTimeoutMs : Nat
  pollIntervalMs : Nat

/-- Environment of one `status` call: the HTTP transport and the OS
process-table liveness oracle. -/
structure StatusEnv where
  fetch : String → Nat → FetchOutcome
  alive : Int → Bool

/-- `status(serverUrl, timeoutMs)` (lines 73–86): probe with
`Math.min(3000, timeoutMs)`, read the pid file, and classify: no pid →
`missing`; pid alive → `running`; pid dead → `stopped`. -/
def status (env : StatusEnv) (url : String) (timeoutMs : Nat) (w : World) :
    NodeServerStatus × World :=
  let reachable := pingTranslationServer env.fetch url (min 3000 timeoutMs)
  match readPidFile w.pidFileContent with
  | none => ({ reachable := reachable, pid := none, process := PState.missing }, w)
  | some pid =>
    let res := isProcessRunning env.alive pid w
    if res.1 then
      ({ reachable := reachable, pid := some pid, process := PState.running }, res.2)
    else
      ({ reachable := reachable, pid := some pid, process := PState.stopped }, res.2)

/-- Result of a `start` call: `ok` for a normal return, the others for the
distinct `throw` sites of the source (invalid URL from the `URL`
constructor, non-loopback host, empty `sourcePath`, missing server entry
file, "exited early", startup timeout). -/
inductive StartResult where
  | ok
  | invalidUrl
  | nonLoopbackHost (host : String)
  | emptySourcePath
  | entryNotFound
  | exitedEarly
  | startupTimeout
  deriving DecidableEq

/-- Environment of one `start` call: liveness oracle for the initial
record check (line 95), existence of `sourcePath/src/server.js`, the pid
the spawned child is assigned, per-iteration HTTP transport and liveness
of the child during the poll loop, and the fuel: the number of loop
iterations for which `Date.now() < deadline` still holds (the deadline is
`now + startupTimeoutMs`).  `child.pid` is modelled as always assigned;
the `?? -1` fallback for an undefined pid is not exercised by any claim. -/
structure StartEnv where
  aliveCurrent : Int → Bool
  entryExists : Bool
  childPid : Int
  fetchIter : Nat → String → Nat → FetchOutcome
  aliveIter : Nat → Bool
  fuel : Nat

/-- The poll loop of `start` (lines 131–145), iteration index `i`, with
`fuel` iterations left before the deadline: probe the URL with a 1500ms
timeout; on reachability return; otherwise check liveness of the spawned
pid and, if it died, delete the pid file and fail with the "exited early"
error; otherwise sleep `pollIntervalMs` and continue.  Fuel exhausted
(`Date.now() < deadline` false) fails with the startup-timeout error. -/
def startLoop (env : StartEnv) (url : String) : Nat → Nat → World → StartResult × World
  | _, 0, w => (StartResult.startupTimeout, w)
  | i, fuel + 1, w =>
    if pingTranslationServer (env.fetchIter i) url 1500 then (StartResult.ok, w)
    else
      let res := isProcessRunning (fun _ => env.aliveIter i) env.childPid w
      if res.1 then startLoop env url (i + 1) fuel res.2
      else (StartResult.exitedEarly, { res.2 with pidFileContent := none })

/-- `start` after the host and current-record checks (lines 99–145):
validate `sourcePath` and the server entry, `mkdir` the pid-file and
log-file parent directories, spawn the child (the append-mode open of the
log file has no modelled effect), write `` `${child.pid}\n` `` to the pid
file, then run the poll loop. -/
def startSpawnPhase (cfg : ServerManagementConfig) (env : StartEnv) (url : String)
    (w : World) : StartResult × World :=
  if jsTrimStr cfg.sourcePath = "" then (StartResult.emptySourcePath, w)
  else if !env.entryExists then (StartResult.entryNotFound, w)
  else
    let w₁ : World :=
      { w with events := w.events ++
          [Effect.mkdirParent cfg.pidFile, Effect.mkdirParent cfg.logFile,
           Effect.spawn env.childPid] }
    let w₂ : World := { w₁ with pidFileContent := some (jsIntToString env.childPid ++ "\n") }
    startLoop env url 0 env.fuel w₂

/-- `start(serverUrl)` (lines 88–146): reject a non-loopback host before
any side effect; return as a no-op when the recorded pid is alive;
otherwise run the spawn phase. -/
def start (cfg : ServerManagementConfig) (env : StartEnv) (url : String) (w : World) :
    StartResult × World :=
  match parseHost url with
  | none => (StartResult.invalidUrl, w)
  | some host =>
    if host ≠ "127.0.0.1" ∧ host ≠ "localhost" then (StartResult.nonLoopbackHost host, w)
    else
      match readPidFile w.pidFileContent with
      | some currentPid =>
        let res := isProcessRunning env.aliveCurrent currentPid w
        if res.1 then (StartResult.ok, res.2)
        else startSpawnPhase cfg env url res.2
      | none => startSpawnPhase cfg env url w

/-- Environment of one `stop` call: liveness oracle for the initial check
and per-iteration liveness of the recorded pid during the grace loop, plus
the fuel: the number of iterations for which `Date.now() < deadline`
(deadline `now + 5000`) still holds. -/
structure StopEnv where
  aliveInit : Int → Bool
  aliveIter : Nat → Bool
  fuel : Nat

/-- The grace loop of `stop` (lines 161–168): poll liveness every 150ms;
on death delete the pid file and return; after the 5-second deadline send
`SIGKILL` and delete the pid file unconditionally (lines 170–171). -/
def stopLoop (env : StopEnv) (pid : Int) : Nat → Nat → World → World
  | _, 0, w =>
    let w₁ : World := { w with events := w.events ++ [Effect.kill pid Sig.sigkill] }
    { w₁ with pidFileContent := none }
  | i, fuel + 1, w =>
    let res := isProcessRunning (fun _ => env.aliveIter i) pid w
    if res.1 then stopLoop env pid (i + 1) fuel res.2
    else { res.2 with pidFileContent := none }

/-- `stop()` (lines 148–172): no record → no-op; recorded pid dead →
delete the record and return; otherwise `SIGTERM`, grace loop, and on
deadline `SIGKILL` plus unconditional record deletion.  `stop` cannot fail
in the modelled world (the source throws only on non-ENOENT I/O errors,
which are outside the model). -/
def stop (env : StopEnv) (w : World) : World :=
  match readPidFile w.pidFileContent with
  | none => w
  | some pid =>
    let res := isProcessRunning env.aliveInit pid w
    if !res.1 then { res.2 with pidFileContent := none }
    else
      let w₁ : World := { res.2 with events := res.2.events ++ [Effect.kill pid Sig.sigterm] }
      stopLoop env pid 0 env.fuel w₁

/-- Environment of one `ensureRunning` call: the HTTP transport of its own
probe, plus the environment of the `start` call it may delegate to. -/
structure EnsureEnv where
  fetch : String → Nat → FetchOutcome
  startEnv : StartEnv

/-- Result of `ensureRunning`: normal return on a reachable endpoint, the
"management disabled" error, or whatever the delegated `start` produced
(`startOutcome StartResult.ok` is `start` returning normally). -/
inductive EnsureResult where
  | ok
  | managementDisabled
  | startOutcome (r : StartResult)
  deriving DecidableEq

/-- `ensureRunning(serverUrl, requestTimeoutMs)` (lines 174–185): probe
with `Math.min(3000, requestTimeoutMs)`; reachable → return; unreachable
with `enabled` false → the "management disabled" error; otherwise
delegate to `start`. -/
def ensureRunning (cfg : ServerManagementConfig) (env : EnsureEnv) (url : String)
    (requestTimeoutMs : Nat) (w : World) : EnsureResult × World :=
  if pingTranslationServer env.fetch url (min 3000 requestTimeoutMs) then
    (EnsureResult.ok, w)
  else if !cfg.enabled then (EnsureResult.managementDisabled, w)
  else
    let res := start cfg env.startEnv url w
    (EnsureResult.startOutcome res.1, res.2)

/-- The pids of the `spawn` effects in a log, in order. -/
def spawnedPids : List Effect → List Int
  | [] => []
  | Effect.spawn p :: rest => p :: spawnedPids rest
  | _ :: rest => spawnedPids rest

/-! ## Helper lemmas -/

theorem strData_append (a b : String) : (a ++ b).data = a.data ++ b.data := by
  cases a; cases b; rfl

theorem asString_data (l : List Char) : (List.asString l).data = l := rfl

theorem digitChar_facts (d : Nat) (hd : d < 10) :
    (Nat.digitChar d).isDigit = true ∧ isJsSpace (Nat.digitChar d) = false ∧
      ((Nat.digitChar d) == '-') = false ∧ ((Nat.digitChar d) == '+') = false ∧
      digitVal (Nat.digitChar d) = d := by
  interval_cases d <;> exact ⟨by decide, by decide, by decide, by decide, by decide⟩

theorem revDigits_zero (fuel : Nat) : revDigits fuel 0 = [] := by
  cases fuel <;> rfl

theorem revDigits_mem (fuel : Nat) :
    ∀ n, ∀ c ∈ revDigits fuel n, c.isDigit = true ∧ isJsSpace c = false ∧
      (c == '-') = false ∧ (c == '+') = false := by
  induction fuel with
  | zero => intro n c hc; cases n <;> simp [revDigits] at hc
  | succ f ih =>
    intro n c hc
    cases n with
    | zero => simp [revDigits] at hc
    | succ m =>
      rw [revDigits] at hc
      rcases List.mem_cons.mp hc with h | h
      · subst h
        have h10 : (m + 1) % 10 < 10 := Nat.mod_lt _ (by norm_num)
        have hf := digitChar_facts _ h10
        exact ⟨hf.1, hf.2.1, hf.2.2.1, hf.2.2.2.1⟩
      · exact ih _ c h

theorem decValueLE_revDigits (fuel : Nat) :
    ∀ n, n ≤ fuel → decValueLE (revDigits fuel n) = n := by
  induction fuel with
  | zero =>
    intro n hn
    have hz : n = 0 := Nat.le_zero.mp hn
    subst hz
    rfl
  | succ f ih =>
    intro n hn
    cases n with
    | zero => simp [revDigits_zero, decValueLE]
    | succ m =>
      rw [revDigits]
      have h10 : (m + 1) % 10 < 10 := Nat.mod_lt _ (by norm_num)
      have hd := (digitChar_facts _ h10).2.2.2.2
      have hdiv : (m + 1) / 10 ≤ f := by
        have := Nat.div_lt_self (Nat.succ_pos m) (by norm_num : 1 < 10)
        omega
      rw [decValueLE, hd, ih _ hdiv]
      omega

theorem decValue_append_one (l : List Char) (c : Char) :
    decValue (l ++ [c]) = 10 * decValue l + digitVal c := by
  simp only [decValue, List.foldl_append, List.foldl_cons, List.foldl_nil]
  omega

theorem decValue_reverse (l : List Char) : decValue l.reverse = decValueLE l := by
  induction l with
  | nil => rfl
  | cons c t ih =>
    rw [List.reverse_cons, decValue_append_one, ih, decValueLE]
    omega

theorem dropWhile_no_space (l : List Char) (h : ∀ c ∈ l, isJsSpace c = false) :
    l.dropWhile isJsSpace = l := by
  cases l with
  | nil => rfl
  | cons a t =>
    rw [List.dropWhile_cons, h a (List.mem_cons_self a t)]
    simp

theorem listTrim_append_newline (l : List Char) (hne : l ≠ [])
    (hl : ∀ c ∈ l, isJsSpace c = false) :
    listTrim (l ++ ['\n']) = l := by
  have hrev : ∀ c ∈ l.reverse, isJsSpace c = false := fun c hc =>
    hl c (List.mem_reverse.mp hc)
  obtain ⟨a, t, rfl⟩ := List.exists_cons_of_ne_nil hne
  unfold listTrim
  rw [List.cons_append, List.dropWhile_cons, hl a (List.mem_cons_self a t)]
  simp only [Bool.false_eq_true, if_false]
  have h1 : (a :: (t ++ ['\n'])).reverse = '\n' :: (a :: t).reverse := by
    simp
  rw [h1, List.dropWhile_cons]
  simp only [show isJsSpace '\n' = true from rfl, if_true]
  rw [dropWhile_no_space _ hrev, List.reverse_reverse]

theorem jsNumberChars_digit_list (l : List Char) (hne : l ≠ [])
    (hl : ∀ c ∈ l, c.isDigit = true ∧ (c == '-') = false ∧ (c == '+') = false) :
    jsNumberChars l = some ((decValue l : Int)) := by
  obtain ⟨a, t, rfl⟩ := List.exists_cons_of_ne_nil hne
  have ha := hl a (List.mem_cons_self a t)
  have hdl : isDigitList (a :: t) = true := by
    simp only [isDigitList, List.isEmpty_cons, Bool.not_false, Bool.true_and,
      List.all_eq_true]
    intro c hc
    exact (hl c hc).1
  rw [jsNumberChars, ha.2.1, ha.2.2]
  simp [hdl]

theorem revDigits_self_ne_nil (n : Nat) (hn : 0 < n) : revDigits n n ≠ [] := by
  cases n with
  | zero => omega
  | succ m => simp [revDigits]

theorem readPidFile_write_roundtrip (c : Int) (hc : 0 < c) :
    readPidFile (some (jsIntToString c ++ "\n")) = some c := by
  have hnpos : 0 < c.toNat := by omega
  have hstr : jsIntToString c = ((revDigits c.toNat c.toNat).reverse).asString := by
    unfold jsIntToString natDecString
    rw [if_neg (by omega : ¬ c < 0), if_neg (by omega : ¬ c.toNat = 0)]
  set L : List Char := (revDigits c.toNat c.toNat).reverse with hL
  have hLmem : ∀ ch ∈ L, ch.isDigit = true ∧ isJsSpace ch = false ∧
      (ch == '-') = false ∧ (ch == '+') = false := by
    intro ch hch
    exact revDigits_mem c.toNat c.toNat ch (List.mem_reverse.mp hch)
  have hLne : L ≠ [] := by
    rw [hL]
    simp only [ne_eq, List.reverse_eq_nil_iff]
    exact revDigits_self_ne_nil c.toNat hnpos
  have hdata : ((List.asString L) ++ "\n").data = L ++ ['\n'] := by
    rw [strData_append, asString_data]
  rw [hstr]
  show readPidFile (some (List.asString L ++ "\n")) = some c
  rw [readPidFile, hdata,
    listTrim_append_newline L hLne (fun ch hch => (hLmem ch hch).2.1),
    jsNumberChars_digit_list L hLne
      (fun ch hch => ⟨(hLmem ch hch).1, (hLmem ch hch).2.2.1, (hLmem ch hch).2.2.2⟩)]
  have hval : decValue L = c.toNat := by
    rw [hL, decValue_reverse]
    exact decValueLE_revDigits c.toNat c.toNat le_rfl
  rw [hval]
  simp only [if_neg (by omega : ¬ (c.toNat : Int) ≤ 0)]
  congr 1
  omega

theorem readPidFile_pos (content : Option String) (p : Int)
    (h : readPidFile content = some p) : 0 < p := by
  cases content with
  | none => simp [readPidFile] at h
  | some raw =>
    rw [readPidFile] at h
    rcases hq : jsNumberChars (listTrim raw.data) with _ | q <;> rw [hq] at h
    · simp at h
    · simp at h
      omega

theorem stopLoop_clears (env : StopEnv) (pid : Int) :
    ∀ fuel i w, (stopLoop env pid i fuel w).pidFileContent = none := by
  intro fuel
  induction fuel with
  | zero => intro i w; rfl
  | succ f ih =>
    intro i w
    rw [stopLoop]
    by_cases h : env.aliveIter i = true
    · simp only [isProcessRunning, h, if_true]
      exact ih (i + 1) _
    · simp only [isProcessRunning]
      rw [if_neg h]

theorem stopLoop_trace (env : StopEnv) (pid : Int) :
    ∀ fuel i w, (∀ j, j < fuel → env.aliveIter (i + j) = true) →
      stopLoop env pid i fuel w =
        { pidFileContent := none,
          events := w.events ++ List.replicate fuel (Effect.kill pid Sig.sig0) ++
            [Effect.kill pid Sig.sigkill] } := by
  intro fuel
  induction fuel with
  | zero =>
    intro i w _
    simp [stopLoop]
  | succ f ih =>
    intro i w h
    have h0 : env.aliveIter i = true := by
      have := h 0 (Nat.succ_pos f)
      simpa using this
    rw [stopLoop]
    simp only [isProcessRunning, h0, if_true]
    rw [ih (i + 1) _ (fun j hj => by
      have := h (j + 1) (Nat.succ_lt_succ hj)
      simpa [Nat.add_assoc, Nat.add_comm 1 j] using this)]
    simp [List.replicate_succ, List.append_assoc]

theorem stopLoop_kills_pos (env : StopEnv) (pid : Int) (hpid : 0 < pid) :
    ∀ fuel i w, (∀ q s, Effect.kill q s ∈ w.events → 0 < q) →
      ∀ q s, Effect.kill q s ∈ (stopLoop env pid i fuel w).events → 0 < q := by
  intro fuel
  induction fuel with
  | zero =>
    intro i w hw q s hmem
    simp only [stopLoop, List.mem_append, List.mem_singleton] at hmem
    rcases hmem with hmem | hmem
    · exact hw q s hmem
    · injection hmem with h1 h2; omega
  | succ f ih =>
    intro i w hw q s hmem
    rw [stopLoop] at hmem
    by_cases h : env.aliveIter i = true
    · simp only [isProcessRunning, h, if_true] at hmem
      refine ih (i + 1) _ ?_ q s hmem
      intro q' s' hmem'
      simp only [List.mem_append, List.mem_singleton] at hmem'
      rcases hmem' with hmem' | hmem'
      · exact hw q' s' hmem'
      · injection hmem' with h1 h2; omega
    · simp only [isProcessRunning] at hmem
      rw [if_neg h] at hmem
      simp only [List.mem_append, List.mem_singleton] at hmem
      rcases hmem with hmem | hmem
      · exact hw q s hmem
      · injection hmem with h1 h2; omega

theorem startLoop_skip (env : StartEnv) (url : String) :
    ∀ k i fuel w, k ≤ fuel →
      (∀ j, j < k → pingTranslationServer (env.fetchIter (i + j)) url 1500 = false ∧
        env.aliveIter (i + j) = true) →
      ∃ w' : World, startLoop env url i fuel w = startLoop env url (i + k) (fuel - k) w' ∧
        w'.pidFileContent = w.pidFileContent := by
  intro k
  induction k with
  | zero =>
    intro i fuel w _ _
    exact ⟨w, by simp, rfl⟩
  | succ n ih =>
    intro i fuel w hk h
    rcases Nat.exists_eq_add_of_le hk with ⟨rest, hrest⟩
    cases fuel with
    | zero => omega
    | succ f =>
      have h0 := h 0 (Nat.succ_pos n)
      simp only [Nat.add_zero] at h0
      rw [startLoop]
      rw [h0.1]
      simp only [Bool.false_eq_true, if_false, isProcessRunning, h0.2, if_true]
      obtain ⟨w', hw', hcontent⟩ := ih (i + 1) f
        { w with events := w.events ++ [Effect.kill env.childPid Sig.sig0] }
        (by omega)
        (fun j hj => by
          have := h (j + 1) (Nat.succ_lt_succ hj)
          constructor
          · have h1 := this.1
            rw [show i + 1 + j = i + (j + 1) by omega]
            exact h1
          · have h2 := this.2
            rw [show i + 1 + j = i + (j + 1) by omega]
            exact h2)
      refine ⟨w', ?_, hcontent⟩
      rw [hw']
      congr 1 <;> omega

theorem spawnedPids_append (a b : List Effect) :
    spawnedPids (a ++ b) = spawnedPids a ++ spawnedPids b := by
  induction a with
  | nil => rfl
  | cons e t ih => cases e <;> simp [spawnedPids, ih]

/-! ## Claim theorems -/

/-- C9: the health probe is total and classifies sub-server-error
responses as healthy: `pingTranslationServer` returns `true` iff the fetch
delivered a response before the abort timer with status code strictly less
than 500, and returns `false` — never raising, the `catch` branch being
modelled by `FetchOutcome.failure` — on any network error, cancellation at
the timeout, or transport failure. -/
theorem ping_true_iff_sub500 (fetch : String → Nat → FetchOutcome) (url : String)
    (t : Nat) :
    (pingTranslationServer fetch url t = true ↔
      ∃ code, fetch (normalizeUrl url) t = FetchOutcome.response code ∧ code < 500) ∧
    (fetch (normalizeUrl url) t = FetchOutcome.failure →
      pingTranslationServer fetch url t = false) := by
  constructor
  · constructor
    · intro h
      unfold pingTranslationServer at h
      rcases hf : fetch (normalizeUrl url) t with code | _ <;> rw [hf] at h
      · exact ⟨code, rfl, by simpa using h⟩
      · simp at h
    · rintro ⟨code, hf, hc⟩
      unfold pingTranslationServer
      rw [hf]
      simpa
  · intro hf
    unfold pingTranslationServer
    rw [hf]

theorem ping_true_iff_sub500_witness :
    pingTranslationServer (fun _ _ => FetchOutcome.response 404)
      "http://127.0.0.1:1969" 3000 = true ∧
    pingTranslationServer (fun _ _ => FetchOutcome.failure)
      "http://127.0.0.1:1969" 3000 = false := by
  constructor
  · exact (ping_true_iff_sub500 (fun _ _ => FetchOutcome.response 404)
      "http://127.0.0.1:1969" 3000).1.mpr ⟨404, rfl, by decide⟩
  · exact (ping_true_iff_sub500 (fun _ _ => FetchOutcome.failure)
      "http://127.0.0.1:1969" 3000).2 rfl

/-- C1: `status` probes with timeout `min(3000, timeoutMs)` and its
composite result classifies the process purely from record presence and
liveness: no readable positive-integer pid (file absent, non-numeric
content, or a non-positive parse) gives `pid = none` and `missing`; a
recorded alive pid gives that pid and `running`; a recorded dead pid gives
that pid and `stopped`; and the classification does not depend on the
probe (any environment with the same liveness oracle yields the same pid
and classification). -/
theorem status_composite_classification (env : StatusEnv) (url : String) (t : Nat)
    (w : World) :
    ((status env url t w).1.reachable = pingTranslationServer env.fetch url (min 3000 t)) ∧
    (readPidFile w.pidFileContent = none →
      (status env url t w).1.pid = none ∧
      (status env url t w).1.process = PState.missing) ∧
    (∀ s, w.pidFileContent = some s → jsNumberChars (listTrim s.data) = none →
      (status env url t w).1.pid = none ∧
      (status env url t w).1.process = PState.missing) ∧
    (∀ s p, w.pidFileContent = some s → jsNumberChars (listTrim s.data) = some p →
      p ≤ 0 →
      (status env url t w).1.pid = none ∧
      (status env url t w).1.process = PState.missing) ∧
    (∀ p, readPidFile w.pidFileContent = some p → env.alive p = true →
      (status env url t w).1.pid = some p ∧
      (status env url t w).1.process = PState.running) ∧
    (∀ p, readPidFile w.pidFileContent = some p → env.alive p = false →
      (status env url t w).1.pid = some p ∧
      (status env url t w).1.process = PState.stopped) ∧
    (∀ env' : StatusEnv, env'.alive = env.alive →
      (status env' url t w).1.pid = (status env url t w).1.pid ∧
      (status env' url t w).1.process = (status env url t w).1.process) := by
  refine ⟨?_, ?_, ?_, ?_, ?_, ?_, ?_⟩
  · rcases h : readPidFile w.pidFileContent with _ | p
    · simp [status, h]
    · cases ha : env.alive p <;> simp [status, h, isProcessRunning, ha]
  · intro h
    simp [status, h]
  · intro s hs hj
    have h : readPidFile w.pidFileContent = none := by
      rw [hs, readPidFile, hj]
    simp [status, h]
  · intro s p hs hj hple
    have h : readPidFile w.pidFileContent = none := by
      rw [hs, readPidFile, hj]
      simp [hple]
    simp [status, h]
  · intro p h hp
    simp [status, h, isProcessRunning, hp]
  · intro p h hp
    simp [status, h, isProcessRunning, hp]
  · intro env' halive
    rcases h : readPidFile w.pidFileContent with _ | p
    · simp [status, h]
    · cases ha : env.alive p <;>
        simp [status, h, isProcessRunning, ha, halive]

theorem status_composite_classification_witness :
    (status ⟨fun _ _ => FetchOutcome.response 200, fun _ => true⟩
        "http://127.0.0.1:1969" 5000 ⟨some "42\n", []⟩).1.pid = some 42 ∧
    (status ⟨fun _ _ => FetchOutcome.response 200, fun _ => true⟩
        "http://127.0.0.1:1969" 5000 ⟨some "42\n", []⟩).1.process = PState.running :=
  (status_composite_classification ⟨fun _ _ => FetchOutcome.response 200, fun _ => true⟩
    "http://127.0.0.1:1969" 5000 ⟨some "42\n", []⟩).2.2.2.2.1 42 (by decide) rfl

/-- C2 counterexample: `status` observes the recorded pid 42 as not alive
(it classifies the process `stopped`), yet the record file survives the
call unchanged — so it is false that every operation observing the
recorded pid dead removes the record file as part of that observation. -/
theorem record_deletion_claim_counterexample :
    (status ⟨fun _ _ => FetchOutcome.failure, fun _ => false⟩
        "http://127.0.0.1:1969" 5000 ⟨some "42\n", []⟩).1.process = PState.stopped ∧
    (status ⟨fun _ _ => FetchOutcome.failure, fun _ => false⟩
        "http://127.0.0.1:1969" 5000 ⟨some "42\n", []⟩).2.pidFileContent =
      some "42\n" := by
  constructor <;> rfl

/-- C2 amended: the record file is deleted when `stop` runs with a
readable recorded pid — whether it finds the pid dead or completes
termination of a live one — and when `start`'s poll loop observes the
just-launched pid dead; `status`, although it also observes liveness,
never modifies the record file. -/
theorem record_deletion_amended :
    (∀ (env : StopEnv) (w : World) (p : Int), readPidFile w.pidFileContent = some p →
      (stop env w).pidFileContent = none) ∧
    (∀ (env : StartEnv) (url : String) (i fuel : Nat) (w : World),
      pingTranslationServer (env.fetchIter i) url 1500 = false →
      env.aliveIter i = false →
      (startLoop env url i (fuel + 1) w).1 = StartResult.exitedEarly ∧
      (startLoop env url i (fuel + 1) w).2.pidFileContent = none) ∧
    (∀ (env : StatusEnv) (url : String) (t : Nat) (w : World),
      (status env url t w).2.pidFileContent = w.pidFileContent) := by
  refine ⟨?_, ?_, ?_⟩
  · intro env w p h
    rw [stop, h]
    cases ha : env.aliveInit p
    · simp [isProcessRunning, ha]
    · simp only [isProcessRunning, ha, Bool.not_true, Bool.false_eq_true, if_false]
      exact stopLoop_clears env p env.fuel 0 _
  · intro env url i fuel w hping halive
    rw [startLoop, hping]
    simp [isProcessRunning, halive]
  · intro env url t w
    rcases h : readPidFile w.pidFileContent with _ | p
    · simp [status, h]
    · cases ha : env.alive p <;> simp [status, h, isProcessRunning, ha]

theorem record_deletion_amended_witness :
    (stop ⟨fun _ => false, fun _ => false, 0⟩ ⟨some "42\n", []⟩).pidFileContent =
      none :=
  record_deletion_amended.1 ⟨fun _ => false, fun _ => false, 0⟩ ⟨some "42\n", []⟩ 42
    (by decide)

/-- C3: `start` against an endpoint whose host is neither `127.0.0.1` nor
`localhost` fails with the configuration error before any side effect: the
returned world is exactly the input world, so the record file is neither
created nor modified, no directory is created and no process is spawned. -/
theorem start_non_loopback_no_side_effects (cfg : ServerManagementConfig)
    (env : StartEnv) (url : String) (w : World) (host : String)
    (hhost : parseHost url = some host) (h1 : host ≠ "127.0.0.1")
    (h2 : host ≠ "localhost") :
    start cfg env url w = (StartResult.nonLoopbackHost host, w) := by
  simp only [start, hhost]
  rw [if_pos ⟨h1, h2⟩]

theorem start_non_loopback_no_side_effects_witness :
    start ⟨true, true, "/srv/ts", "node", "/tmp/ts.pid", "/tmp/ts.log", 30000, 200⟩
        ⟨fun _ => false, true, 7, fun _ _ _ => FetchOutcome.failure, fun _ => true, 3⟩
        "http://example.com:1969" ⟨none, []⟩ =
      (StartResult.nonLoopbackHost "example.com", ⟨none, []⟩) :=
  start_non_loopback_no_side_effects
    ⟨true, true, "/srv/ts", "node", "/tmp/ts.pid", "/tmp/ts.log", 30000, 200⟩
    ⟨fun _ => false, true, 7, fun _ _ _ => FetchOutcome.failure, fun _ => true, 3⟩
    "http://example.com:1969" ⟨none, []⟩ "example.com" (by decide) (by decide)
    (by decide)

/-- C7: when `stop` finds the recorded pid alive and it stays alive
through every iteration of the 5-second grace loop, `stop` sends `SIGKILL`
after the grace deadline and clears the record unconditionally, returning
normally; the exact event trace ends with the `SIGKILL` — no liveness
probe follows it, i.e. death is not re-verified. -/
theorem stop_force_kill_clears_record (env : StopEnv) (w : World) (p : Int)
    (hread : readPidFile w.pidFileContent = some p)
    (halive : env.aliveInit p = true)
    (hloop : ∀ i, i < env.fuel → env.aliveIter i = true) :
    stop env w =
      { pidFileContent := none,
        events := w.events ++ [Effect.kill p Sig.sig0, Effect.kill p Sig.sigterm] ++
          List.replicate env.fuel (Effect.kill p Sig.sig0) ++
          [Effect.kill p Sig.sigkill] } := by
  rw [stop, hread]
  simp only [isProcessRunning, halive, Bool.not_true, Bool.false_eq_true, if_false]
  rw [stopLoop_trace env p env.fuel 0 _ (fun j hj => by simpa using hloop j hj)]
  simp

theorem stop_force_kill_clears_record_witness :
    stop ⟨fun _ => true, fun _ => true, 2⟩ ⟨some "42\n", []⟩ =
      { pidFileContent := none,
        events := ([] : List Effect) ++
          [Effect.kill 42 Sig.sig0, Effect.kill 42 Sig.sigterm] ++
          List.replicate 2 (Effect.kill 42 Sig.sig0) ++
          [Effect.kill 42 Sig.sigkill] } :=
  stop_force_kill_clears_record ⟨fun _ => true, fun _ => true, 2⟩ ⟨some "42\n", []⟩ 42
    (by decide) rfl (fun i _ => rfl)

/-- C8: `ensureRunning` probes with timeout `min(3000, requestTimeoutMs)`;
a reachable endpoint is a pure no-op; unreachable with management disabled
fails with the management-disabled error touching nothing (the world is
returned unchanged — no spawn, no record change); otherwise it behaves
exactly as `start` on the same world, returning `start`'s outcome and
world. -/
theorem ensureRunning_cases (cfg : ServerManagementConfig) (env : EnsureEnv)
    (url : String) (t : Nat) (w : World) :
    (pingTranslationServer env.fetch url (min 3000 t) = true →
      ensureRunning cfg env url t w = (EnsureResult.ok, w)) ∧
    (pingTranslationServer env.fetch url (min 3000 t) = false → cfg.enabled = false →
      ensureRunning cfg env url t w = (EnsureResult.managementDisabled, w)) ∧
    (pingTranslationServer env.fetch url (min 3000 t) = false → cfg.enabled = true →
      ensureRunning cfg env url t w =
        (EnsureResult.startOutcome (start cfg env.startEnv url w).1,
          (start cfg env.startEnv url w).2)) := by
  refine ⟨?_, ?_, ?_⟩
  · intro hping
    simp [ensureRunning, hping]
  · intro hping hen
    simp [ensureRunning, hping, hen]
  · intro hping hen
    simp [ensureRunning, hping, hen]

theorem ensureRunning_cases_witness :
    ensureRunning
        ⟨false, false, "/srv/ts", "node", "/tmp/ts.pid", "/tmp/ts.log", 30000, 200⟩
        ⟨fun _ _ => FetchOutcome.failure,
          ⟨fun _ => false, true, 7, fun _ _ _ => FetchOutcome.failure, fun _ => true, 3⟩⟩
        "http://127.0.0.1:1969" 10000 ⟨none, []⟩ =
      (EnsureResult.managementDisabled, ⟨none, []⟩) :=
  (ensureRunning_cases
    ⟨false, false, "/srv/ts", "node", "/tmp/ts.pid", "/tmp/ts.log", 30000, 200⟩
    ⟨fun _ _ => FetchOutcome.failure,
      ⟨fun _ => false, true, 7, fun _ _ _ => FetchOutcome.failure, fun _ => true, 3⟩⟩
    "http://127.0.0.1:1969" 10000 ⟨none, []⟩).2.1 rfl rfl

/-- C10: `readPidFile` yields a pid only when the trimmed content parses
as an integer strictly greater than zero — content `"0"`, a negative
number, empty text or non-numeric text yields none — and therefore every
`process.kill` issued by `stop` (the signal-0 liveness checks, the
graceful `SIGTERM` and the forceful `SIGKILL`) targets a pid greater than
zero, never a process group or all processes. -/
theorem stop_kills_only_positive_pids :
    (∀ (content : Option String) (p : Int), readPidFile content = some p → 0 < p) ∧
    readPidFile (some "0") = none ∧ readPidFile (some "-7") = none ∧
    readPidFile (some "") = none ∧ readPidFile (some "abc") = none ∧
    (∀ (env : StopEnv) (w : World), w.events = [] →
      ∀ q s, Effect.kill q s ∈ (stop env w).events → 0 < q) := by
  refine ⟨readPidFile_pos, by decide, by decide, by decide, by decide, ?_⟩
  intro env w hw q s hmem
  rcases h : readPidFile w.pidFileContent with _ | p
  · rw [stop, h, hw] at hmem
    simp at hmem
  · have hp : 0 < p := readPidFile_pos _ _ h
    rw [stop, h] at hmem
    simp only [isProcessRunning] at hmem
    cases ha : env.aliveInit p
    · rw [ha] at hmem
      simp only [Bool.not_false, if_true, hw, List.nil_append,
        List.mem_singleton] at hmem
      injection hmem with h1 h2
      omega
    · rw [ha] at hmem
      simp only [Bool.not_true, Bool.false_eq_true, if_false] at hmem
      refine stopLoop_kills_pos env p hp env.fuel 0 _ ?_ q s hmem
      intro q' s' hmem'
      simp only [hw, List.nil_append, List.mem_append, List.mem_singleton] at hmem'
      rcases hmem' with hmem' | hmem' <;> (injection hmem' with h1 h2; omega)

theorem stop_kills_only_positive_pids_witness :
    Effect.kill 42 Sig.sig0 ∈
      (stop ⟨fun _ => false, fun _ => false, 0⟩ ⟨some "42\n", []⟩).events ∧
    (0 : Int) < 42 :=
  ⟨by decide,
    stop_kills_only_positive_pids.2.2.2.2.2 ⟨fun _ => false, fun _ => false, 0⟩
      ⟨some "42\n", []⟩ rfl 42 Sig.sig0 (by decide)⟩

theorem start_loopback (cfg : ServerManagementConfig) (env : StartEnv)
    (url host : String) (hhost : parseHost url = some host)
    (hloop : host = "127.0.0.1" ∨ host = "localhost") (w : World) :
    start cfg env url w =
      (match readPidFile w.pidFileContent with
        | some currentPid =>
          let res := isProcessRunning env.aliveCurrent currentPid w
          if res.1 then (StartResult.ok, res.2) else startSpawnPhase cfg env url res.2
        | none => startSpawnPhase cfg env url w) := by
  simp only [start, hhost]
  rw [if_neg (by rcases hloop with h | h <;> subst h <;> simp)]

theorem start_reaches_loop (cfg : ServerManagementConfig) (env : StartEnv)
    (url host : String) (hhost : parseHost url = some host)
    (hloop : host = "127.0.0.1" ∨ host = "localhost") (w : World)
    (h0 : readPidFile w.pidFileContent = none)
    (hsrc : jsTrimStr cfg.sourcePath ≠ "")
    (hentry : env.entryExists = true) :
    start cfg env url w = startLoop env url 0 env.fuel
      { pidFileContent := some (jsIntToString env.childPid ++ "\n"),
        events := w.events ++ [Effect.mkdirParent cfg.pidFile,
          Effect.mkdirParent cfg.logFile, Effect.spawn env.childPid] } := by
  rw [start_loopback cfg env url host hhost hloop, h0]
  show startSpawnPhase cfg env url w = _
  rw [startSpawnPhase, if_neg hsrc, hentry]
  simp only [Bool.not_true, Bool.false_eq_true, if_false]

/-- C4: `start` is idempotent while the recorded process is alive: with a
loopback endpoint, whenever the record holds a pid and that pid is alive,
`start` returns normally with the record file untouched and no process
spawned (its only effect is the signal-0 liveness probe); consequently a
second `start` immediately after a successful first one (first poll probe
reachable, spawned pid still alive) yields exactly one spawned process and
the record pid unchanged across both calls. -/
theorem start_idempotent_while_alive (cfg : ServerManagementConfig)
    (url host : String) (hhost : parseHost url = some host)
    (hloop : host = "127.0.0.1" ∨ host = "localhost") :
    (∀ (env : StartEnv) (w : World) (p : Int),
      readPidFile w.pidFileContent = some p → env.aliveCurrent p = true →
      start cfg env url w =
        (StartResult.ok, { w with events := w.events ++ [Effect.kill p Sig.sig0] })) ∧
    (∀ (env₁ env₂ : StartEnv) (w : World),
      readPidFile w.pidFileContent = none →
      jsTrimStr cfg.sourcePath ≠ "" →
      env₁.entryExists = true →
      pingTranslationServer (env₁.fetchIter 0) url 1500 = true →
      0 < env₁.fuel →
      0 < env₁.childPid →
      env₂.aliveCurrent env₁.childPid = true →
      (start cfg env₁ url w).1 = StartResult.ok ∧
      spawnedPids (start cfg env₁ url w).2.events =
        spawnedPids w.events ++ [env₁.childPid] ∧
      (start cfg env₁ url w).2.pidFileContent =
        some (jsIntToString env₁.childPid ++ "\n") ∧
      (start cfg env₂ url (start cfg env₁ url w).2).1 = StartResult.ok ∧
      spawnedPids (start cfg env₂ url (start cfg env₁ url w).2).2.events =
        spawnedPids (start cfg env₁ url w).2.events ∧
      (start cfg env₂ url (start cfg env₁ url w).2).2.pidFileContent =
        (start cfg env₁ url w).2.pidFileContent) := by
  have part1 : ∀ (env : StartEnv) (w : World) (p : Int),
      readPidFile w.pidFileContent = some p → env.aliveCurrent p = true →
      start cfg env url w =
        (StartResult.ok, { w with events := w.events ++ [Effect.kill p Sig.sig0] }) := by
    intro env w p hread halive
    rw [start_loopback cfg env url host hhost hloop, hread]
    simp [isProcessRunning, halive]
  refine ⟨part1, ?_⟩
  intro env₁ env₂ w h0 hsrc hentry hping hfuel hcpid halive2
  obtain ⟨f, hf⟩ : ∃ f, env₁.fuel = f + 1 := ⟨env₁.fuel - 1, by omega⟩
  have hrun1 : start cfg env₁ url w =
      (StartResult.ok,
        { pidFileContent := some (jsIntToString env₁.childPid ++ "\n"),
          events := w.events ++ [Effect.mkdirParent cfg.pidFile,
            Effect.mkdirParent cfg.logFile, Effect.spawn env₁.childPid] }) := by
    rw [start_reaches_loop cfg env₁ url host hhost hloop w h0 hsrc hentry, hf,
      startLoop, hping]
    simp
  have hread2 : readPidFile (start cfg env₁ url w).2.pidFileContent =
      some env₁.childPid := by
    rw [hrun1]
    exact readPidFile_write_roundtrip env₁.childPid hcpid
  have hrun2 : start cfg env₂ url (start cfg env₁ url w).2 =
      (StartResult.ok, { (start cfg env₁ url w).2 with
        events := (start cfg env₁ url w).2.events ++
          [Effect.kill env₁.childPid Sig.sig0] }) :=
    part1 env₂ (start cfg env₁ url w).2 env₁.childPid hread2 halive2
  refine ⟨?_, ?_, ?_, ?_, ?_, ?_⟩
  · rw [hrun1]
  · rw [hrun1]
    simp [spawnedPids_append, spawnedPids]
  · rw [hrun1]
  · rw [hrun2]
  · rw [hrun2]
    simp [spawnedPids_append, spawnedPids]
  · rw [hrun2]

theorem start_idempotent_while_alive_witness :
    (start ⟨true, true, "/srv/ts", "node", "/tmp/ts.pid", "/tmp/ts.log", 30000, 200⟩
        ⟨fun _ => false, true, 7, fun _ _ _ => FetchOutcome.response 200,
          fun _ => true, 3⟩
        "http://127.0.0.1:1969" ⟨none, []⟩).1 = StartResult.ok := by
  have h := (start_idempotent_while_alive
    ⟨true, true, "/srv/ts", "node", "/tmp/ts.pid", "/tmp/ts.log", 30000, 200⟩
    "http://127.0.0.1:1969" "127.0.0.1" (by decide) (Or.inl rfl)).2
    ⟨fun _ => false, true, 7, fun _ _ _ => FetchOutcome.response 200, fun _ => true, 3⟩
    ⟨fun _ => true, true, 8, fun _ _ _ => FetchOutcome.failure, fun _ => false, 0⟩
    ⟨none, []⟩ rfl (by decide) rfl (by decide) (by decide) (by decide) rfl
  exact h.1

/-- C5: on every iteration of `start`'s poll loop — any iteration index
with any fuel remaining, not only at the deadline — an unreachable
endpoint combined with the just-launched pid no longer alive makes the
loop remove the record file and fail with the exited-early error, after
which a read of the record returns none; and a full `start` run reaching
such an iteration fails the same way with the record cleared. -/
theorem start_poll_loop_early_exit_clears_record (cfg : ServerManagementConfig)
    (url host : String) (hhost : parseHost url = some host)
    (hloop : host = "127.0.0.1" ∨ host = "localhost") :
    (∀ (env : StartEnv) (i fuel : Nat) (w : World),
      pingTranslationServer (env.fetchIter i) url 1500 = false →
      env.aliveIter i = false →
      (startLoop env url i (fuel + 1) w).1 = StartResult.exitedEarly ∧
      (startLoop env url i (fuel + 1) w).2.pidFileContent = none ∧
      readPidFile (startLoop env url i (fuel + 1) w).2.pidFileContent = none) ∧
    (∀ (env : StartEnv) (w : World) (k : Nat),
      readPidFile w.pidFileContent = none →
      jsTrimStr cfg.sourcePath ≠ "" →
      env.entryExists = true →
      k < env.fuel →
      (∀ j, j < k → pingTranslationServer (env.fetchIter j) url 1500 = false ∧
        env.aliveIter j = true) →
      pingTranslationServer (env.fetchIter k) url 1500 = false →
      env.aliveIter k = false →
      (start cfg env url w).1 = StartResult.exitedEarly ∧
      (start cfg env url w).2.pidFileContent = none ∧
      readPidFile (start cfg env url w).2.pidFileContent = none) := by
  constructor
  · intro env i fuel w hping halive
    rw [startLoop, hping]
    simp [isProcessRunning, halive, readPidFile]
  · intro env w k h0 hsrc hentry hk hsteps hping halive
    obtain ⟨w', hw', _⟩ := startLoop_skip env url k 0 env.fuel
      { pidFileContent := some (jsIntToString env.childPid ++ "\n"),
        events := w.events ++ [Effect.mkdirParent cfg.pidFile,
          Effect.mkdirParent cfg.logFile, Effect.spawn env.childPid] }
      (le_of_lt hk) (fun j hj => by simpa using hsteps j hj)
    simp only [Nat.zero_add] at hw'
    obtain ⟨m, hm⟩ : ∃ m, env.fuel - k = m + 1 := ⟨env.fuel - k - 1, by omega⟩
    rw [start_reaches_loop cfg env url host hhost hloop w h0 hsrc hentry, hw', hm,
      startLoop, hping]
    simp [isProcessRunning, halive, readPidFile]

theorem start_poll_loop_early_exit_clears_record_witness :
    (start ⟨true, true, "/srv/ts", "node", "/tmp/ts.pid", "/tmp/ts.log", 30000, 200⟩
        ⟨fun _ => false, true, 7, fun _ _ _ => FetchOutcome.failure, fun _ => false, 5⟩
        "http://127.0.0.1:1969" ⟨none, []⟩).1 = StartResult.exitedEarly ∧
    (start ⟨true, true, "/srv/ts", "node", "/tmp/ts.pid", "/tmp/ts.log", 30000, 200⟩
        ⟨fun _ => false, true, 7, fun _ _ _ => FetchOutcome.failure, fun _ => false, 5⟩
        "http://127.0.0.1:1969" ⟨none, []⟩).2.pidFileContent = none := by
  have h := (start_poll_loop_early_exit_clears_record
    ⟨true, true, "/srv/ts", "node", "/tmp/ts.pid", "/tmp/ts.log", 30000, 200⟩
    "http://127.0.0.1:1969" "127.0.0.1" (by decide) (Or.inl rfl)).2
    ⟨fun _ => false, true, 7, fun _ _ _ => FetchOutcome.failure, fun _ => false, 5⟩
    ⟨none, []⟩ 0 rfl (by decide) rfl (by decide)
    (fun j hj => absurd hj (Nat.not_lt_zero j)) rfl rfl
  exact ⟨h.1, h.2.1⟩

/-- C6: when the startup deadline elapses with the endpoint never
reachable and the spawned pid never observed dead, `start` fails with the
startup-timeout error and the record file is left in place, still holding
exactly the pid content written right after the spawn. -/
theorem start_timeout_preserves_record (cfg : ServerManagementConfig)
    (url host : String) (hhost : parseHost url = some host)
    (hloop : host = "127.0.0.1" ∨ host = "localhost")
    (env : StartEnv) (w : World)
    (h0 : readPidFile w.pidFileContent = none)
    (hsrc : jsTrimStr cfg.sourcePath ≠ "")
    (hentry : env.entryExists = true)
    (hsteps : ∀ j, j < env.fuel →
      pingTranslationServer (env.fetchIter j) url 1500 = false ∧
        env.aliveIter j = true) :
    (start cfg env url w).1 = StartResult.startupTimeout ∧
    (start cfg env url w).2.pidFileContent =
      some (jsIntToString env.childPid ++ "\n") := by
  obtain ⟨w', hw', hcontent⟩ := startLoop_skip env url env.fuel 0 env.fuel
    { pidFileContent := some (jsIntToString env.childPid ++ "\n"),
      events := w.events ++ [Effect.mkdirParent cfg.pidFile,
        Effect.mkdirParent cfg.logFile, Effect.spawn env.childPid] }
    le_rfl (fun j hj => by simpa using hsteps j hj)
  simp only [Nat.zero_add, Nat.sub_self] at hw'
  rw [start_reaches_loop cfg env url host hhost hloop w h0 hsrc hentry, hw',
    startLoop]
  exact ⟨rfl, hcontent⟩

theorem start_timeout_preserves_record_witness :
    (start ⟨true, true, "/srv/ts", "node", "/tmp/ts.pid", "/tmp/ts.log", 30000, 200⟩
        ⟨fun _ => false, true, 7, fun _ _ _ => FetchOutcome.failure, fun _ => true, 2⟩
        "http://127.0.0.1:1969" ⟨none, []⟩).1 = StartResult.startupTimeout ∧
    (start ⟨true, true, "/srv/ts", "node", "/tmp/ts.pid", "/tmp/ts.log", 30000, 200⟩
        ⟨fun _ => false, true, 7, fun _ _ _ => FetchOutcome.failure, fun _ => true, 2⟩
        "http://127.0.0.1:1969" ⟨none, []⟩).2.pidFileContent =
      some (jsIntToString 7 ++ "\n") :=
  start_timeout_preserves_record
    ⟨true, true, "/srv/ts", "node", "/tmp/ts.pid", "/tmp/ts.log", 30000, 200⟩
    "http://127.0.0.1:1969" "127.0.0.1" (by decide) (Or.inl rfl)
    ⟨fun _ => false, true, 7, fun _ _ _ => FetchOutcome.failure, fun _ => true, 2⟩
    ⟨none, []⟩ rfl (by decide) rfl (fun j _ => ⟨rfl, rfl⟩)
